import Mathlib

/-!
# Grooby — verification of the change-detection engine and its frontend caller

This development shallowly embeds the Grooby application:

* the Electron renderer's `processFile` workflow (from `frontend/renderer.js`:
  the processing-lock guard, file validation, the fetch to
  `/process-file`, result handling and the `finally` lock release), and

* the Python change-detection engine (Snapshot Selector, Column Aligner,
  Noise Filter, Signature Builder, Change Classifier, Highlighter, Atomic
  Writer).  The Python sources (`backend/index.py`, `backend/file_utils.py`,
  `backend/server.py`) are not part of the available sources, so those
  components are modelled from the specification; each such definition is
  marked `Modelled from the spec:` in its doc comment.
-/

namespace Grooby

/-! ## Frontend: renderer state and `processFile` (embedded from renderer.js) -/

/-- The renderer-visible UI state touched by `processFile` and
`setProcessingState`: the module-level `isProcessing` flag, the run button
(`runBtn`, which may be absent from the DOM), and the status area. -/
structure UIState where
  isProcessing : Bool
  btnPresent : Bool
  btnDisabled : Bool
  btnProcessing : Bool
  statusDisplayBlock : Bool
  statusClass : String
  statusText : String
deriving DecidableEq, Repr

/-- `setProcessingState(processing)` from renderer.js: sets the
`isProcessing` flag, and when the run button exists, sets its `disabled`
property and adds/removes the `processing` CSS class. -/
def setProcessingState (st : UIState) (p : Bool) : UIState :=
  let st1 := { st with isProcessing := p }
  if st1.btnPresent then
    { st1 with btnDisabled := p, btnProcessing := p }
  else st1

/-- The JSON body of a backend response as read by `processFile`:
`data.changes_found` (used on `response.ok`) and `data.detail`
(used on error responses; absent field modelled as `none`). -/
structure RespData where
  changes_found : Bool
  detail : Option String
deriving DecidableEq, Repr

/-- Outcome of the `fetch` call: a response with `ok` status and JSON body,
or a rejected promise carrying an error message. -/
inductive FetchResult where
  | resp (ok : Bool) (data : RespData)
  | reject (msg : String)
deriving DecidableEq, Repr

/-- JavaScript `data.detail || "Unknown error"`: a missing or empty-string
(falsy) `detail` field falls back to the default. -/
def jsOrDefault (d : Option String) (dflt : String) : String :=
  match d with
  | some s => if s = "" then dflt else s
  | none => dflt

/-- Externally visible effects of one `processFile` invocation:
alert messages shown and number of HTTP requests issued. -/
structure Effects where
  alerts : List String
  fetches : Nat
deriving DecidableEq, Repr

/-- The synchronous prefix of `processFile` (renderer.js), up to and
including the issuing of the fetch: the `isProcessing` guard, the
empty-file-input validation (alert), lock acquisition via
`setProcessingState(true)` and the switch of the status area to the
"Processing... please wait." display.  Returns the state after the prefix,
whether a fetch was issued, and the alerts shown. -/
def processFilePre (st : UIState) (hasFile : Bool) : UIState × Bool × List String :=
  if st.isProcessing then (st, false, [])
  else if ¬ hasFile then (st, false, ["Please select a file first!"])
  else
    let st1 := setProcessingState st true
    let st2 := { st1 with
      statusDisplayBlock := true
      statusClass := "status"
      statusText := "Processing... please wait." }
    (st2, true, [])

/-- The continuation of `processFile` (renderer.js) that runs when the
awaited fetch settles: on `response.ok` it shows the success message chosen
by `data.changes_found`; otherwise it throws `data.detail || "Unknown
error"`, which the `catch` block renders as `Error: ...` with the error CSS
class; a rejected fetch goes to the same `catch` block.  The `finally`
block releases the lock via `setProcessingState(false)`. -/
def processFilePost (st : UIState) (res : FetchResult) : UIState :=
  let st1 := match res with
    | .resp true data =>
        { st with
          statusClass := "status success"
          statusText := if data.changes_found then
              "Success! Changes detected and highlighted in file."
            else "Success! No changes were detected." }
    | .resp false data =>
        { st with
          statusClass := "status error"
          statusText := "Error: " ++ jsOrDefault data.detail "Unknown error" }
    | .reject msg =>
        { st with
          statusClass := "status error"
          statusText := "Error: " ++ msg }
  setProcessingState st1 false

/-- One full `processFile` invocation (renderer.js), given whether the file
input holds a file and the fetch outcome: the synchronous prefix followed,
when a fetch was issued, by the post-await continuation. -/
def processFile (st : UIState) (hasFile : Bool) (res : FetchResult) : UIState × Effects :=
  match processFilePre st hasFile with
  | (st1, true, as) => (processFilePost st1 res, ⟨as, 1⟩)
  | (st1, false, as) => (st1, ⟨as, 0⟩)

/-- `getProcessingState()` from renderer.js. -/
def getProcessingState (st : UIState) : Bool :=
  st.isProcessing

/-- The renderer module's initial state: `isProcessing = false`, run button
present and enabled, status area in its default state. -/
def initUI : UIState :=
  { isProcessing := false
    btnPresent := true
    btnDisabled := false
    btnProcessing := false
    statusDisplayBlock := false
    statusClass := "status"
    statusText := "" }

/-- The state reached by the synchronous prefix of `processFile` once the
lock is acquired and the status area switched to the processing display. -/
def midState (st : UIState) : UIState :=
  { setProcessingState st true with
    statusDisplayBlock := true
    statusClass := "status"
    statusText := "Processing... please wait." }

/-! ## Frontend: interleaving trace semantics for the processing lock

JavaScript's renderer is single-threaded: an invocation of `processFile`
runs synchronously through the guard, validation, lock acquisition and
fetch issuance (`processFilePre`); while it awaits the response, other
invocations may run; when the response settles, the invocation's
continuation (`processFilePost`) runs.  A trace interleaves these phases. -/

/-- Global state of the renderer event loop: the UI state, the ids of
invocations whose request is in flight (fetch issued, response not yet
handled), and the log of all requests issued. -/
structure TraceState where
  ui : UIState
  pending : List Nat
  fetchLog : List Nat
deriving DecidableEq, Repr

/-- An event-loop event: an invocation of `processFile` starts (running its
synchronous prefix), or a previously issued fetch settles and the matching
invocation's continuation runs. -/
inductive UIEvent where
  | start (id : Nat) (hasFile : Bool)
  | finish (id : Nat) (res : FetchResult)
deriving DecidableEq, Repr

/-- Single event-loop step. A `start` runs `processFilePre`; when it issues
a fetch the invocation becomes pending and the request is logged.  A
`finish` for a pending invocation runs `processFilePost` and removes the
invocation from the pending set; a `finish` for a non-pending id is a
no-op. -/
def traceStep (s : TraceState) (e : UIEvent) : TraceState :=
  match e with
  | .start id hasFile =>
    match processFilePre s.ui hasFile with
    | (ui1, true, _) =>
        { ui := ui1, pending := s.pending ++ [id], fetchLog := s.fetchLog ++ [id] }
    | (ui1, false, _) => { s with ui := ui1 }
  | .finish id res =>
    if s.pending.contains id then
      { s with ui := processFilePost s.ui res, pending := s.pending.filter (· ≠ id) }
    else s

/-- Run a list of event-loop events from a state. -/
def traceRun (s : TraceState) : List UIEvent → TraceState
  | [] => s
  | e :: es => traceRun (traceStep s e) es

/-- Initial trace state for a given initial UI state. -/
def initTrace (ui0 : UIState) : TraceState :=
  { ui := ui0, pending := [], fetchLog := [] }

/-- The lock invariant: the `isProcessing` flag is set exactly while some
request is in flight, and at most one request is in flight. -/
def LockInv (s : TraceState) : Prop :=
  s.ui.isProcessing = !s.pending.isEmpty ∧ s.pending.length ≤ 1

/-! ## Engine data model

Modelled from the spec: the Python engine sources (`backend/index.py`,
`backend/file_utils.py`) are not among the available sources, so the data
model and the seven pipeline stages below follow the specification text
(§3–§4) directly. -/

/-- Modelled from the spec: a normalized cell Value — string, number, date,
or empty (§3 "Row").  Numbers are modelled as integers and dates as day
ordinals so that equality of values is decidable. -/
inductive Value where
  | str (s : String)
  | num (n : Int)
  | date (d : Nat)
  | empty
deriving DecidableEq, Repr

/-- Modelled from the spec: a cell of a sheet — its normalized value plus
its visual fill formatting (used by the Highlighter). -/
structure Cell where
  value : Value
  fill : Option String
deriving DecidableEq, Repr

/-- A cell with an empty value and no formatting. -/
def defaultCell : Cell := ⟨Value.empty, none⟩

/-- Modelled from the spec: a Sheet — a named 2-D grid of cells with a
header row defining unique column names and zero or more data rows (§3). -/
structure Sheet where
  name : String
  header : List String
  rows : List (List Cell)
deriving DecidableEq, Repr

/-- Modelled from the spec: a Workbook — a named container of Sheets loaded
from a single file path (§3). -/
structure Workbook where
  sheets : List Sheet
deriving DecidableEq, Repr

/-- Modelled from the spec: the engine configuration — the ignore-list of
column names and the noise threshold, a rational in `[0,1]` given as
numerator and denominator (§6). -/
structure Config where
  ignored : List String
  thresholdNum : Nat
  thresholdDen : Nat
deriving DecidableEq, Repr

/-- The configured noise threshold as a rational number. -/
def Config.threshold (cfg : Config) : ℚ :=
  (cfg.thresholdNum : ℚ) / (cfg.thresholdDen : ℚ)

/-- The default configuration: `IGNORED_COLUMNS = ["LOT #"]`,
`NOISE_THRESHOLD = 0.5`. -/
def defaultConfig : Config :=
  { ignored := ["LOT #"], thresholdNum := 1, thresholdDen := 2 }

/-- Modelled from the spec: the engine's error taxonomy (§7). -/
inductive EngineError where
  | FileNotReadable
  | InsufficientSnapshots
  | NoComparableColumns
  | WriteFailure
deriving DecidableEq, Repr

/-! ## Snapshot Selector (modelled from the spec, §4.1) -/

/-- Split a character list into the groups separated by dots. -/
def splitOnDot : List Char → List (List Char)
  | [] => [[]]
  | c :: cs =>
    if c = '.' then [] :: splitOnDot cs
    else
      match splitOnDot cs with
      | [] => [[c]]
      | g :: gs => (c :: g) :: gs

/-- Parse a non-empty all-digit character list as a natural number. -/
def digitsToNat? (cs : List Char) : Option Nat :=
  if cs.isEmpty then none
  else if cs.all Char.isDigit then
    some (cs.foldl (fun acc c => acc * 10 + (c.toNat - '0'.toNat)) 0)
  else none

/-- Modelled from the spec: parse a sheet name against the date-like
`MM.DD` naming convention (§3, §4.1); eligible names are those of the form
`month.day` with both parts numeric and in calendar range. -/
def parseSheetDate (name : String) : Option (Nat × Nat) :=
  match splitOnDot name.data with
  | [m, d] =>
    match digitsToNat? m, digitsToNat? d with
    | some mn, some dn =>
      if 1 ≤ mn && mn ≤ 12 && 1 ≤ dn && dn ≤ 31 then some (mn, dn) else none
    | _, _ => none
  | _ => none

/-- A comparable key for an eligible sheet's date. -/
def dateKey (p : Nat × Nat) : Nat := p.1 * 100 + p.2

/-- Modelled from the spec: the date-eligible sheets of a workbook, each
paired with its comparable date key (§4.1). -/
def eligibleSheets (wb : Workbook) : List (Sheet × Nat) :=
  wb.sheets.filterMap fun s => (parseSheetDate s.name).map fun p => (s, dateKey p)

/-- Insert into a list kept sorted by descending date key. -/
def insertDesc (x : Sheet × Nat) : List (Sheet × Nat) → List (Sheet × Nat)
  | [] => [x]
  | y :: ys => if x.2 ≥ y.2 then x :: y :: ys else y :: insertDesc x ys

/-- Sort by descending date key (insertion sort). -/
def sortDesc : List (Sheet × Nat) → List (Sheet × Nat)
  | [] => []
  | x :: xs => insertDesc x (sortDesc xs)

/-- Modelled from the spec: the Snapshot Selector (§4.1) — retains the
date-eligible sheets, sorts them by date descending, and selects the two
most recent as `(previous, current)`; fails with `InsufficientSnapshots`
when fewer than two eligible sheets exist. -/
def selectSnapshots (wb : Workbook) : Except EngineError (Sheet × Sheet) :=
  match sortDesc (eligibleSheets wb) with
  | c :: p :: _ => .ok (p.1, c.1)
  | _ => .error .InsufficientSnapshots

/-! ## Column Aligner (modelled from the spec, §4.2) -/

/-- Modelled from the spec: the Column Aligner (§4.2) — the column names
common to both sheets, minus the ignore-list, in `current`'s header order;
fails with `NoComparableColumns` when the result is empty. -/
def alignColumns (cfg : Config) (previous current : Sheet) :
    Except EngineError (List String) :=
  let cols := current.header.filter fun c =>
    previous.header.contains c && !(cfg.ignored.contains c)
  if cols.isEmpty then .error .NoComparableColumns else .ok cols

/-! ## Noise Filter (modelled from the spec, §4.3) -/

/-- The value of the cell named `col` in a row, `empty` when the column is
not in the header or the row is too short. -/
def cellAt (header : List String) (row : List Cell) (col : String) : Value :=
  match header.findIdx? (· == col) with
  | some i => (row.getD i defaultCell).value
  | none => Value.empty

/-- Modelled from the spec: positional row alignment (§4.3) — row *i* of
`previous` against row *i* of `current`, up to the shorter sheet's
length. -/
def alignedPairs (previous current : Sheet) : List (List Cell × List Cell) :=
  previous.rows.zip current.rows

/-- The number of aligned row pairs whose value differs in column `col`. -/
def diffCount (previous current : Sheet) (col : String) : Nat :=
  ((alignedPairs previous current).filter fun pr =>
    decide (cellAt previous.header pr.1 col ≠ cellAt current.header pr.2 col)).length

/-- Modelled from the spec: the fraction of aligned rows whose value
differs for a column; a column with zero aligned rows has change rate 0
(§4.3). -/
def changeRate (previous current : Sheet) (col : String) : ℚ :=
  let n := (alignedPairs previous current).length
  if n = 0 then 0 else (diffCount previous current col : ℚ) / (n : ℚ)

/-- Whether a column's change fraction strictly exceeds the configured
threshold, decided by cross-multiplication:
`diff / aligned > num / den ↔ diff * den > num * aligned`. -/
def isNoisy (cfg : Config) (previous current : Sheet) (col : String) : Bool :=
  diffCount previous current col * cfg.thresholdDen >
    cfg.thresholdNum * (alignedPairs previous current).length

/-- Modelled from the spec: the Noise Filter (§4.3) — removes from the
ColumnSet every column whose change fraction strictly exceeds the
threshold. -/
def noiseFilter (cfg : Config) (previous current : Sheet)
    (cols : List String) : List String :=
  cols.filter fun c => !(isNoisy cfg previous current c)

/-! ## Signature Builder (modelled from the spec, §4.4) -/

/-- Modelled from the spec: normalization of a value to a canonical,
type-tagged textual form (§4.4, §9): strings are trimmed, numbers and
dates rendered in a fixed representation, and each tag is distinct so that
`5` and `"5"` do not collide. -/
def normalizeValue : Value → String
  | .str s => "s:" ++ s.trim
  | .num n => "n:" ++ toString n
  | .date d => "d:" ++ toString d
  | .empty => "e:"

/-- Modelled from the spec: a row's signature (§4.4) — the normalized
values at ColumnSet positions concatenated in ColumnSet order with an
unambiguous separator.  The concatenation itself serves as the fixed-form
digest (a digest must be deterministic and collision-averse; identity is
both). -/
def rowSignature (header : List String) (cols : List String)
    (row : List Cell) : String :=
  String.intercalate "|" (cols.map fun c => normalizeValue (cellAt header row c))

/-- Modelled from the spec: the Signature Builder's output (§4.4) — a
signature per row, paired with that row's original position. -/
def sheetSignatures (s : Sheet) (cols : List String) : List (Nat × String) :=
  s.rows.enum.map fun p => (p.1, rowSignature s.header cols p.2)

/-! ## Change Classifier (modelled from the spec, §4.5) -/

/-- Modelled from the spec: the Change Classifier (§4.5) — builds the set
of all `previous` signatures; a `current` row is `unchanged` when its
signature is present in that set, otherwise `changed`.  Returns the
ChangeSet (the ordered list of `current` row positions classified
`changed`) and `changes_found` (ChangeSet non-empty). -/
def classify (prevSigs curSigs : List (Nat × String)) : List Nat × Bool :=
  let prevSet := prevSigs.map Prod.snd
  let changed := (curSigs.filter fun p => !(prevSet.contains p.2)).map Prod.fst
  (changed, !changed.isEmpty)

/-! ## Highlighter (modelled from the spec, §4.6) -/

/-- Modelled from the spec: apply the yellow visual fill to every cell of a
row (§4.6); values are untouched. -/
def highlightRow (row : List Cell) : List Cell :=
  row.map fun c => { c with fill := some "yellow" }

/-- Modelled from the spec: the Highlighter on one sheet (§4.6) — fills
every row whose position is in the ChangeSet; all other rows are left
as they are. -/
def highlightSheet (s : Sheet) (changeSet : List Nat) : Sheet :=
  { s with rows := s.rows.enum.map fun p =>
      if changeSet.contains p.1 then highlightRow p.2 else p.2 }

/-- Modelled from the spec: the Highlighter on the workbook (§4.6) — only
the `current` sheet (identified by name) is touched. -/
def highlightWorkbook (wb : Workbook) (curName : String)
    (changeSet : List Nat) : Workbook :=
  { wb with sheets := wb.sheets.map fun s =>
      if s.name = curName then highlightSheet s changeSet else s }

/-! ## Atomic Writer (modelled from the spec, §4.7) -/

/-- A file system: a map from paths to file contents (byte lists). -/
def FileSys : Type := String → Option (List Nat)

/-- Read the bytes of the file at a path. -/
def FileSys.read (fs : FileSys) (p : String) : Option (List Nat) := fs p

/-- Create or overwrite the file at a path. -/
def FileSys.write (fs : FileSys) (p : String) (c : List Nat) : FileSys :=
  fun q => if q = p then some c else fs q

/-- Delete the file at a path (no-op when absent). -/
def FileSys.remove (fs : FileSys) (p : String) : FileSys :=
  fun q => if q = p then none else fs q

/-- Modelled from the spec: workbook serialization to bytes (§4.7); the
exact encoding is irrelevant to the durability contract, only that it is a
deterministic function of the workbook. -/
def serializeCell (c : Cell) : String :=
  normalizeValue c.value ++ (match c.fill with | some f => "#" ++ f | none => "")

/-- Serialize one sheet to a textual form. -/
def serializeSheet (s : Sheet) : String :=
  s.name ++ ":" ++ String.intercalate "," s.header ++ ";" ++
    String.intercalate ";"
      (s.rows.map fun r => String.intercalate "," (r.map serializeCell))

/-- Serialize the workbook to bytes (character codes). -/
def serialize (wb : Workbook) : List Nat :=
  (String.intercalate "\n" (wb.sheets.map serializeSheet)).data.map Char.toNat

/-- Fault injection for the Atomic Writer: the write either completes, or
fails during serialization (before the temporary file exists), or fails
while writing the temporary file (after `written` bytes reached disk). -/
inductive WriteFault where
  | complete
  | serializeFail
  | tempWriteFail (written : Nat)
deriving DecidableEq, Repr

/-- The temporary file placed next to the destination. -/
def tempPath (dest : String) : String := dest ++ ".tmp"

/-- Modelled from the spec: the Atomic Writer (§4.7) — writes the full
serialized workbook to a temporary file in the destination's directory,
then atomically replaces the destination with it; on any failure during
serialization or write the temporary file is discarded (cleanup is
unconditional, §7) and the destination is not touched. -/
def atomicWrite (fs : FileSys) (dest : String) (wb : Workbook)
    (fault : WriteFault) : FileSys × Except EngineError Unit :=
  match fault with
  | .serializeFail =>
      (fs.remove (tempPath dest), .error .WriteFailure)
  | .tempWriteFail k =>
      let fs1 := fs.write (tempPath dest) ((serialize wb).take k)
      (fs1.remove (tempPath dest), .error .WriteFailure)
  | .complete =>
      let bytes := serialize wb
      let fs1 := fs.write (tempPath dest) bytes
      let fs2 := (fs1.remove (tempPath dest)).write dest bytes
      (fs2, .ok ())

/-! ## The full pipeline (modelled from the spec, §6) -/

/-- Modelled from the spec: `process(file_path)` (§6, §4) — the strictly
sequential pipeline Selector → Aligner → Filter → Builder → Classifier →
Highlighter → Writer, on the in-memory workbook `wb` parsed from the file
at `path` (deserialization is abstracted: `wb` stands for the parsed
content).  Returns the resulting file system and either `changes_found` or
the structured error; on error the file system is returned unchanged by
the upstream stages, which have no externally visible side effects. -/
def process (cfg : Config) (fs : FileSys) (path : String) (wb : Workbook)
    (fault : WriteFault) : FileSys × Except EngineError Bool :=
  match selectSnapshots wb with
  | .error e => (fs, .error e)
  | .ok (previous, current) =>
    match alignColumns cfg previous current with
    | .error e => (fs, .error e)
    | .ok cols0 =>
      let cols := noiseFilter cfg previous current cols0
      let result := classify (sheetSignatures previous cols)
        (sheetSignatures current cols)
      let wb2 := highlightWorkbook wb current.name result.1
      match atomicWrite fs path wb2 fault with
      | (fs2, .error e) => (fs2, .error e)
      | (fs2, .ok _) => (fs2, .ok result.2)

/-! ## Concrete fixtures used by the witnesses -/

/-- A one-row sheet named after 24 December. -/
def sheetDec24 : Sheet :=
  { name := "12.24"
    header := ["ID", "Status"]
    rows := [[⟨.str "a", none⟩, ⟨.str "ok", none⟩]] }

/-- A one-row sheet named after 23 December, differing from `sheetDec24`
in the `Status` column. -/
def sheetDec23 : Sheet :=
  { name := "12.23"
    header := ["ID", "Status"]
    rows := [[⟨.str "a", none⟩, ⟨.str "old", none⟩]] }

/-- A sheet whose name does not match the date convention. -/
def sheetSummary : Sheet :=
  { name := "Summary", header := ["ID"], rows := [] }

/-- A workbook whose only date-eligible sheet is `"12.24"`. -/
def wbOneSnapshot : Workbook := ⟨[sheetDec24, sheetSummary]⟩

/-- A demo file system holding one workbook file. -/
def fsDemo : FileSys :=
  fun p => if p = "book.xlsx" then some [1, 2, 3] else none

/-! ## Frontend lemmas -/

theorem isProcessing_setProcessingState (st : UIState) (p : Bool) :
    (setProcessingState st p).isProcessing = p := by
  cases hb : st.btnPresent <;> simp [setProcessingState, hb]

theorem btnPresent_setProcessingState (st : UIState) (p : Bool) :
    (setProcessingState st p).btnPresent = st.btnPresent := by
  cases hb : st.btnPresent <;> simp [setProcessingState, hb]

theorem btn_setProcessingState (st : UIState) (p : Bool)
    (hb : st.btnPresent = true) :
    (setProcessingState st p).btnDisabled = p ∧
      (setProcessingState st p).btnProcessing = p := by
  simp [setProcessingState, hb]

theorem isProcessing_processFilePost (st : UIState) (res : FetchResult) :
    (processFilePost st res).isProcessing = false := by
  unfold processFilePost
  exact isProcessing_setProcessingState _ false

theorem btn_processFilePost (st : UIState) (res : FetchResult)
    (hb : st.btnPresent = true) :
    (processFilePost st res).btnDisabled = false ∧
      (processFilePost st res).btnProcessing = false := by
  cases res with
  | resp ok data => cases ok <;> simp [processFilePost, setProcessingState, hb]
  | reject msg => simp [processFilePost, setProcessingState, hb]

theorem status_processFilePost_err (st : UIState) (data : RespData) :
    (processFilePost st (.resp false data)).statusClass = "status error" ∧
      (processFilePost st (.resp false data)).statusText =
        "Error: " ++ jsOrDefault data.detail "Unknown error" := by
  cases hb : st.btnPresent <;> simp [processFilePost, setProcessingState, hb]

theorem processFilePre_of_processing (st : UIState) (hasFile : Bool)
    (h : st.isProcessing = true) :
    processFilePre st hasFile = (st, false, []) := by
  simp [processFilePre, h]

theorem processFilePre_fetch (st : UIState) (h : st.isProcessing = false) :
    processFilePre st true = (midState st, true, []) := by
  simp [processFilePre, midState, h]

theorem processFile_eq (st : UIState) (h : st.isProcessing = false)
    (res : FetchResult) :
    processFile st true res = (processFilePost (midState st) res, ⟨[], 1⟩) := by
  simp [processFile, processFilePre_fetch st h]

theorem lockInv_init (ui0 : UIState) (h : ui0.isProcessing = false) :
    LockInv (initTrace ui0) := by
  simp [LockInv, initTrace, h]

theorem lockInv_step (s : TraceState) (e : UIEvent) (h : LockInv s) :
    LockInv (traceStep s e) := by
  obtain ⟨h1, h2⟩ := h
  cases e with
  | start id hasFile =>
    cases hp : s.ui.isProcessing with
    | true =>
      simp only [traceStep, processFilePre_of_processing s.ui hasFile hp]
      exact ⟨h1, h2⟩
    | false =>
      have hpe : s.pending = [] := by
        rw [hp] at h1
        cases hpl : s.pending with
        | nil => rfl
        | cons a t => rw [hpl] at h1; simp at h1
      cases hf : hasFile with
      | false =>
        simp only [traceStep, processFilePre, hp]
        simp [LockInv, hpe, hp]
      | true =>
        simp only [traceStep, processFilePre_fetch s.ui hp]
        refine ⟨?_, ?_⟩
        · show (midState s.ui).isProcessing = _
          rw [show (midState s.ui).isProcessing =
                (setProcessingState s.ui true).isProcessing from rfl,
            isProcessing_setProcessingState]
          simp [hpe]
        · simp [hpe]
  | finish id res =>
    cases hc : s.pending.contains id with
    | false =>
      simp only [traceStep, hc]
      exact ⟨h1, h2⟩
    | true =>
      have hm : id ∈ s.pending := by
        simpa using hc
      have hsingle : s.pending = [id] := by
        cases hpl : s.pending with
        | nil => rw [hpl] at hm; simp at hm
        | cons a t =>
          rw [hpl] at h2
          have hlen : t.length = 0 := by
            simp only [List.length_cons] at h2
            omega
          have ht : t = [] := List.length_eq_zero.mp hlen
          subst ht
          rw [hpl] at hm
          simp at hm
          rw [hm]
      simp only [traceStep, hc, if_true]
      constructor
      · rw [isProcessing_processFilePost]
        rw [hsingle]
        simp
      · rw [hsingle]
        apply le_trans (List.length_filter_le _ _)
        simp

theorem lockInv_run (s : TraceState) (es : List UIEvent) (h : LockInv s) :
    LockInv (traceRun s es) := by
  induction es generalizing s with
  | nil => simpa [traceRun] using h
  | cons e es ih => exact ih _ (lockInv_step s e h)

theorem guard_blocks (s : TraceState) (hinv : LockInv s) (hne : s.pending ≠ [])
    (id : Nat) (hasFile : Bool) :
    traceStep s (.start id hasFile) = s := by
  obtain ⟨h1, _⟩ := hinv
  have hp : s.ui.isProcessing = true := by
    rw [h1]
    cases hpl : s.pending with
    | nil => exact absurd hpl hne
    | cons a t => simp
  simp only [traceStep, processFilePre_of_processing s.ui hasFile hp]

/-! ## File-system lemmas -/

theorem read_write_self (fs : FileSys) (p : String) (c : List Nat) :
    (fs.write p c).read p = some c := by
  simp [FileSys.read, FileSys.write]

theorem read_write_ne (fs : FileSys) (p q : String) (c : List Nat)
    (h : q ≠ p) : (fs.write p c).read q = fs.read q := by
  simp [FileSys.read, FileSys.write, h]

theorem read_remove_self (fs : FileSys) (p : String) :
    (fs.remove p).read p = none := by
  simp [FileSys.read, FileSys.remove]

theorem read_remove_ne (fs : FileSys) (p q : String) (h : q ≠ p) :
    (fs.remove p).read q = fs.read q := by
  simp [FileSys.read, FileSys.remove, h]

theorem tempPath_ne (dest : String) : dest ≠ tempPath dest := by
  intro h
  have hlen := congrArg String.length h
  have h4 : (".tmp" : String).length = 4 := by decide
  rw [tempPath, String.length_append, h4] at hlen
  omega

/-! ## Snapshot-selector lemmas -/

theorem length_insertDesc (x : Sheet × Nat) (l : List (Sheet × Nat)) :
    (insertDesc x l).length = l.length + 1 := by
  induction l with
  | nil => rfl
  | cons y ys ih =>
    by_cases h : x.2 ≥ y.2 <;> simp [insertDesc, h, ih]

theorem length_sortDesc (l : List (Sheet × Nat)) :
    (sortDesc l).length = l.length := by
  induction l with
  | nil => rfl
  | cons x xs ih => simp [sortDesc, length_insertDesc, ih]

theorem selectSnapshots_insufficient (wb : Workbook)
    (h : (eligibleSheets wb).length < 2) :
    selectSnapshots wb = .error .InsufficientSnapshots := by
  have hl : (sortDesc (eligibleSheets wb)).length < 2 := by
    rw [length_sortDesc]; exact h
  rcases hs : sortDesc (eligibleSheets wb) with _ | ⟨c, _ | ⟨p, rest⟩⟩
  · simp [selectSnapshots, hs]
  · simp [selectSnapshots, hs]
  · rw [hs] at hl
    simp only [List.length_cons] at hl
    omega

end Grooby

/-! ## Claims about the frontend caller -/

/-- C4: The calling layer guarantees at most one in-flight processing
request at a time: starting from the renderer's initial state (processing
flag down), after any sequence of event-loop events at most one request is
in flight, and while one invocation is in flight any further invocation of
`processFile` returns immediately, changing nothing and issuing no HTTP
request. -/
theorem C4_single_inflight_request (ui0 : Grooby.UIState)
    (h0 : ui0.isProcessing = false) (es : List Grooby.UIEvent) :
    (Grooby.traceRun (Grooby.initTrace ui0) es).pending.length ≤ 1 ∧
      (∀ id hasFile, (Grooby.traceRun (Grooby.initTrace ui0) es).pending ≠ [] →
        Grooby.traceStep (Grooby.traceRun (Grooby.initTrace ui0) es)
            (.start id hasFile) =
          Grooby.traceRun (Grooby.initTrace ui0) es) := by
  have hinv := Grooby.lockInv_run _ es (Grooby.lockInv_init ui0 h0)
  exact ⟨hinv.2, fun id hasFile hne => Grooby.guard_blocks _ hinv hne id hasFile⟩

/-- Witness for C4 at a concrete trace: one invocation starts and is in
flight; a second start is a no-op. -/
theorem C4_single_inflight_request_witness :
    (Grooby.traceRun (Grooby.initTrace Grooby.initUI)
        [.start 0 true]).pending.length ≤ 1 ∧
      Grooby.traceStep (Grooby.traceRun (Grooby.initTrace Grooby.initUI)
          [.start 0 true]) (.start 1 true) =
        Grooby.traceRun (Grooby.initTrace Grooby.initUI) [.start 0 true] := by
  have h := C4_single_inflight_request Grooby.initUI (by rfl) [.start 0 true]
  exact ⟨h.1, h.2 1 true (by decide)⟩

/-- C8: an invocation of `processFile` with no file selected (and the
processing flag down) alerts the user, issues no HTTP request, and leaves
the whole UI state unchanged — in particular the processing flag stays
false, the run button keeps its state, and the status area is not switched
to the processing display. -/
theorem C8_no_file_alerts_and_no_request (st : Grooby.UIState)
    (h : st.isProcessing = false) (res : Grooby.FetchResult) :
    Grooby.processFile st false res =
      (st, ⟨["Please select a file first!"], 0⟩) := by
  simp [Grooby.processFile, Grooby.processFilePre, h]

/-- Witness for C8 at the initial UI state. -/
theorem C8_no_file_alerts_and_no_request_witness :
    Grooby.processFile Grooby.initUI false (.reject "net") =
      (Grooby.initUI, ⟨["Please select a file first!"], 0⟩) :=
  C8_no_file_alerts_and_no_request Grooby.initUI (by rfl) (.reject "net")

/-- C9: every invocation of `processFile` that acquires the processing lock
releases it on every exit path (success with or without changes, non-ok
response, rejected fetch): afterwards `getProcessingState()` is false and,
when the run button exists, it is re-enabled with the `processing` CSS
class removed. -/
theorem C9_lock_always_released (st : Grooby.UIState)
    (h : st.isProcessing = false) (res : Grooby.FetchResult) :
    Grooby.getProcessingState (Grooby.processFile st true res).1 = false ∧
      (st.btnPresent = true →
        (Grooby.processFile st true res).1.btnDisabled = false ∧
          (Grooby.processFile st true res).1.btnProcessing = false) := by
  rw [Grooby.processFile_eq st h res]
  refine ⟨Grooby.isProcessing_processFilePost _ res, fun hb => ?_⟩
  apply Grooby.btn_processFilePost
  rw [show (Grooby.midState st).btnPresent =
        (Grooby.setProcessingState st true).btnPresent from rfl,
    Grooby.btnPresent_setProcessingState, hb]

/-- Witness for C9: after a rejected fetch from the initial state, the lock
is released and the button re-enabled. -/
theorem C9_lock_always_released_witness :
    Grooby.getProcessingState
        (Grooby.processFile Grooby.initUI true (.reject "net")).1 = false ∧
      (Grooby.initUI.btnPresent = true →
        (Grooby.processFile Grooby.initUI true (.reject "net")).1.btnDisabled = false ∧
          (Grooby.processFile Grooby.initUI true (.reject "net")).1.btnProcessing = false) :=
  C9_lock_always_released Grooby.initUI (by rfl) (.reject "net")

/-- C10: on a backend response with `ok = false`, `processFile` shows
`Error: <detail>` when the response body's `detail` field is present and
non-empty, `Error: Unknown error` when it is absent, and gives the status
area the error CSS class in both cases. -/
theorem C10_error_response_detail (st : Grooby.UIState)
    (h : st.isProcessing = false) (data : Grooby.RespData) :
    (Grooby.processFile st true (.resp false data)).1.statusClass = "status error" ∧
      (∀ s, data.detail = some s → s ≠ "" →
        (Grooby.processFile st true (.resp false data)).1.statusText = "Error: " ++ s) ∧
      (data.detail = none →
        (Grooby.processFile st true (.resp false data)).1.statusText =
          "Error: Unknown error") := by
  rw [Grooby.processFile_eq st h (.resp false data)]
  obtain ⟨hc, ht⟩ := Grooby.status_processFilePost_err (Grooby.midState st) data
  refine ⟨hc, ?_, ?_⟩
  · intro s hs hne
    rw [ht, hs]
    simp [Grooby.jsOrDefault, hne]
  · intro hn
    rw [ht, hn]
    simp [Grooby.jsOrDefault]

/-- Witness for C10 at concrete error responses with and without detail. -/
theorem C10_error_response_detail_witness :
    (Grooby.processFile Grooby.initUI true
        (.resp false ⟨false, some "boom"⟩)).1.statusClass = "status error" ∧
      (Grooby.processFile Grooby.initUI true
          (.resp false ⟨false, some "boom"⟩)).1.statusText = "Error: boom" ∧
      (Grooby.processFile Grooby.initUI true
          (.resp false ⟨false, none⟩)).1.statusText = "Error: Unknown error" :=
  ⟨(C10_error_response_detail Grooby.initUI (by rfl) ⟨false, some "boom"⟩).1,
   (C10_error_response_detail Grooby.initUI (by rfl) ⟨false, some "boom"⟩).2.1
     "boom" rfl (by decide),
   (C10_error_response_detail Grooby.initUI (by rfl) ⟨false, none⟩).2.2 rfl⟩

/-! ## Claims about the engine (modelled from the spec) -/

/-- C1: durability of the Atomic Writer — on any failure during
serialization or during the write of the temporary file (before the atomic
replace), the destination file's bytes are exactly what they were before
the call, the temporary file is discarded, and a `WriteFailure` error is
reported; the destination is never left partially written. -/
theorem C1_atomic_writer_durability (fs : Grooby.FileSys) (dest : String)
    (wb : Grooby.Workbook) (fault : Grooby.WriteFault)
    (h : fault ≠ .complete) :
    (Grooby.atomicWrite fs dest wb fault).2 =
        .error .WriteFailure ∧
      Grooby.FileSys.read (Grooby.atomicWrite fs dest wb fault).1 dest =
        Grooby.FileSys.read fs dest ∧
      Grooby.FileSys.read (Grooby.atomicWrite fs dest wb fault).1
          (Grooby.tempPath dest) = none := by
  cases fault with
  | complete => exact absurd rfl h
  | serializeFail =>
    refine ⟨rfl, ?_, ?_⟩
    · exact Grooby.read_remove_ne fs (Grooby.tempPath dest) dest
        (Grooby.tempPath_ne dest)
    · exact Grooby.read_remove_self fs (Grooby.tempPath dest)
  | tempWriteFail k =>
    refine ⟨rfl, ?_, ?_⟩
    · rw [show (Grooby.atomicWrite fs dest wb (.tempWriteFail k)).1 =
          (fs.write (Grooby.tempPath dest)
            ((Grooby.serialize wb).take k)).remove (Grooby.tempPath dest)
          from rfl]
      rw [Grooby.read_remove_ne _ _ _ (Grooby.tempPath_ne dest)]
      exact Grooby.read_write_ne fs _ dest _ (Grooby.tempPath_ne dest)
    · exact Grooby.read_remove_self _ _

/-- Witness for C1: a failing temp-file write against a concrete file
system leaves the destination's bytes intact and no temporary file. -/
theorem C1_atomic_writer_durability_witness :
    (Grooby.WriteFault.tempWriteFail 2 ≠ Grooby.WriteFault.complete) ∧
      (Grooby.atomicWrite Grooby.fsDemo "book.xlsx" Grooby.wbOneSnapshot
            (.tempWriteFail 2)).2 = .error .WriteFailure ∧
      Grooby.FileSys.read (Grooby.atomicWrite Grooby.fsDemo "book.xlsx"
          Grooby.wbOneSnapshot (.tempWriteFail 2)).1 "book.xlsx" =
        Grooby.FileSys.read Grooby.fsDemo "book.xlsx" ∧
      Grooby.FileSys.read (Grooby.atomicWrite Grooby.fsDemo "book.xlsx"
          Grooby.wbOneSnapshot (.tempWriteFail 2)).1
          (Grooby.tempPath "book.xlsx") = none :=
  ⟨by decide,
   C1_atomic_writer_durability Grooby.fsDemo "book.xlsx" Grooby.wbOneSnapshot
     (.tempWriteFail 2) (by decide)⟩

/-- C5: a workbook with fewer than two date-eligible sheets makes the
Snapshot Selector — and hence the whole `process(file_path)` pipeline —
fail with `InsufficientSnapshots`, leaving the destination file system
unmodified. -/
theorem C5_insufficient_snapshots (cfg : Grooby.Config) (fs : Grooby.FileSys)
    (path : String) (wb : Grooby.Workbook) (fault : Grooby.WriteFault)
    (h : (Grooby.eligibleSheets wb).length < 2) :
    Grooby.process cfg fs path wb fault =
      (fs, .error .InsufficientSnapshots) := by
  simp [Grooby.process, Grooby.selectSnapshots_insufficient wb h]

/-- Witness for C5: a workbook whose only date-eligible sheet is `"12.24"`
fails with `InsufficientSnapshots` and the file system is returned
unchanged. -/
theorem C5_insufficient_snapshots_witness :
    (Grooby.eligibleSheets Grooby.wbOneSnapshot).length < 2 ∧
      Grooby.process Grooby.defaultConfig Grooby.fsDemo "book.xlsx"
          Grooby.wbOneSnapshot .complete =
        (Grooby.fsDemo, .error .InsufficientSnapshots) :=
  ⟨by decide,
   C5_insufficient_snapshots Grooby.defaultConfig Grooby.fsDemo "book.xlsx"
     Grooby.wbOneSnapshot .complete (by decide)⟩

theorem Grooby.isNoisy_iff (cfg : Config) (previous current : Sheet)
    (col : String) (hden : 0 < cfg.thresholdDen) :
    isNoisy cfg previous current col = true ↔
      cfg.threshold < changeRate previous current col := by
  have hd_le : diffCount previous current col ≤
      (alignedPairs previous current).length := by
    unfold diffCount
    exact List.length_filter_le _ _
  by_cases h0 : (alignedPairs previous current).length = 0
  · have hd0 : diffCount previous current col = 0 := by omega
    have hrate : changeRate previous current col = 0 := by
      simp [changeRate, h0]
    rw [hrate]
    constructor
    · intro hn
      exfalso
      simp [isNoisy, hd0, h0] at hn
    · intro hlt
      exfalso
      have hnn : (0 : ℚ) ≤ cfg.threshold := by
        unfold Config.threshold
        positivity
      exact absurd hlt (not_lt.mpr hnn)
  · have hnpos : 0 < ((alignedPairs previous current).length : ℚ) := by
      have := Nat.pos_of_ne_zero h0
      exact_mod_cast this
    have hdenQ : 0 < (cfg.thresholdDen : ℚ) := by exact_mod_cast hden
    have hrate : changeRate previous current col =
        (diffCount previous current col : ℚ) /
          ((alignedPairs previous current).length : ℚ) := by
      simp [changeRate, h0]
    rw [hrate]
    unfold Config.threshold
    rw [div_lt_div_iff₀ hdenQ hnpos]
    unfold isNoisy
    simp only [decide_eq_true_eq, gt_iff_lt]
    constructor
    · intro hlt
      exact_mod_cast hlt
    · intro hlt
      exact_mod_cast hlt

/-- C7: comparing a sheet against itself — the same sheet selected as both
`previous` and `current`, over any ColumnSet arising from any
configuration — yields an empty ChangeSet and `changes_found = false`. -/
theorem C7_self_comparison_no_changes (s : Grooby.Sheet) (cols : List String) :
    Grooby.classify (Grooby.sheetSignatures s cols)
      (Grooby.sheetSignatures s cols) = ([], false) := by
  have hnil : ((Grooby.sheetSignatures s cols).filter fun p =>
      !(((Grooby.sheetSignatures s cols).map Prod.snd).contains p.2)) = [] := by
    apply List.filter_eq_nil_iff.mpr
    intro p hp
    have hmem : p.2 ∈ (Grooby.sheetSignatures s cols).map Prod.snd :=
      List.mem_map.mpr ⟨p, hp, rfl⟩
    have hc : ((Grooby.sheetSignatures s cols).map Prod.snd).contains p.2 = true :=
      List.elem_iff.mpr hmem
    simp only [hc, Bool.not_true, Bool.false_eq_true, not_false_eq_true]
  simp only [Grooby.classify]
  rw [hnil]
  rfl

/-- C3: the Noise Filter retains a candidate column exactly when its change
fraction over positionally aligned rows is at or below the configured
threshold, removes it exactly when the fraction strictly exceeds the
threshold, and a column with zero aligned rows has change rate 0 and is
retained. -/
theorem C3_noise_filter_threshold (cfg : Grooby.Config)
    (previous current : Grooby.Sheet) (cols : List String) (c : String)
    (hden : 0 < cfg.thresholdDen) :
    (c ∈ Grooby.noiseFilter cfg previous current cols ↔
      c ∈ cols ∧
        Grooby.changeRate previous current c ≤ cfg.threshold) ∧
    (c ∈ cols →
      (c ∉ Grooby.noiseFilter cfg previous current cols ↔
        cfg.threshold < Grooby.changeRate previous current c)) ∧
    (Grooby.alignedPairs previous current = [] →
      Grooby.changeRate previous current c = 0 ∧
        Grooby.noiseFilter cfg previous current cols = cols) := by
  have hfalse : (Grooby.isNoisy cfg previous current c = false) ↔
      Grooby.changeRate previous current c ≤ cfg.threshold := by
    rw [← Bool.not_eq_true, Grooby.isNoisy_iff cfg previous current c hden,
      not_lt]
  refine ⟨?_, ?_, ?_⟩
  · rw [Grooby.noiseFilter, List.mem_filter]
    simp only [Bool.not_eq_true']
    rw [hfalse]
  · intro hc
    constructor
    · intro hnin
      by_contra hnot
      apply hnin
      rw [Grooby.noiseFilter, List.mem_filter]
      refine ⟨hc, ?_⟩
      simp only [Bool.not_eq_true']
      exact hfalse.mpr (not_lt.mp hnot)
    · intro hlt hin
      rw [Grooby.noiseFilter, List.mem_filter] at hin
      obtain ⟨-, hq⟩ := hin
      rw [Bool.not_eq_true'] at hq
      exact absurd hlt (not_lt.mpr (hfalse.mp hq))
  · intro hap
    have h0 : (Grooby.alignedPairs previous current).length = 0 := by
      rw [hap]; rfl
    refine ⟨by simp [Grooby.changeRate, h0], ?_⟩
    rw [Grooby.noiseFilter]
    apply List.filter_eq_self.mpr
    intro a ha
    have hd0 : Grooby.diffCount previous current a = 0 := by
      unfold Grooby.diffCount
      rw [hap]
      rfl
    simp [Grooby.isNoisy, hd0, h0]

/-- Witness for C3 at the default configuration (threshold 1/2) and two
concrete one-row sheets. -/
theorem C3_noise_filter_threshold_witness :
    0 < Grooby.defaultConfig.thresholdDen ∧
      ("Status" ∈ Grooby.noiseFilter Grooby.defaultConfig Grooby.sheetDec23
          Grooby.sheetDec24 ["ID", "Status"] ↔
        ("Status" ∈ ["ID", "Status"] ∧
          Grooby.changeRate Grooby.sheetDec23 Grooby.sheetDec24 "Status" ≤
            Grooby.defaultConfig.threshold)) :=
  ⟨by decide,
   (C3_noise_filter_threshold Grooby.defaultConfig Grooby.sheetDec23
     Grooby.sheetDec24 ["ID", "Status"] "Status" (by decide)).1⟩

theorem Grooby.mem_classify_iff (prevSigs : List (Nat × String))
    (s : Sheet) (cols : List String) (i : Nat) :
    i ∈ (classify prevSigs (sheetSignatures s cols)).1 ↔
      ∃ h : i < s.rows.length,
        rowSignature s.header cols (s.rows.get ⟨i, h⟩) ∉
          prevSigs.map Prod.snd := by
  constructor
  · intro hi
    simp only [classify, List.mem_map, List.mem_filter] at hi
    obtain ⟨p, ⟨hpmem, hq⟩, hfst⟩ := hi
    simp only [sheetSignatures, List.mem_map] at hpmem
    obtain ⟨q, hq_enum, hpq⟩ := hpmem
    have hget : s.rows[q.1]? = some q.2 :=
      List.mem_enum_iff_getElem?.mp hq_enum
    have hlt : q.1 < s.rows.length := by
      by_contra hge
      rw [List.getElem?_eq_none (Nat.le_of_not_lt hge)] at hget
      exact Option.noConfusion hget
    have hval : s.rows.get ⟨q.1, hlt⟩ = q.2 := by
      have hg : s.rows[q.1]? = some (s.rows.get ⟨q.1, hlt⟩) := by
        rw [List.get_eq_getElem]
        exact List.getElem?_eq_getElem hlt
      rw [hg] at hget
      exact Option.some.inj hget
    subst hpq
    have hqi : q.1 = i := hfst
    subst hqi
    refine ⟨hlt, fun hmem => ?_⟩
    rw [Bool.not_eq_true'] at hq
    rw [hval] at hmem
    have hcon : (prevSigs.map Prod.snd).contains
        (rowSignature s.header cols q.2) = true := List.elem_iff.mpr hmem
    rw [hcon] at hq
    exact Bool.noConfusion hq
  · rintro ⟨hlt, hnot⟩
    simp only [classify]
    apply List.mem_map.mpr
    refine ⟨(i, rowSignature s.header cols (s.rows.get ⟨i, hlt⟩)), ?_, rfl⟩
    apply List.mem_filter.mpr
    constructor
    · simp only [sheetSignatures]
      apply List.mem_map.mpr
      refine ⟨(i, s.rows.get ⟨i, hlt⟩), ?_, by rw [List.get_eq_getElem]⟩
      apply List.mem_enum_iff_getElem?.mpr
      rw [List.get_eq_getElem]
      exact List.getElem?_eq_getElem hlt
    · rw [Bool.not_eq_true']
      cases hcc : (prevSigs.map Prod.snd).contains
          (rowSignature s.header cols (s.rows.get ⟨i, hlt⟩)) with
      | false => rfl
      | true => exact absurd (List.elem_iff.mp hcc) hnot

theorem Grooby.classify_fst_sublist (prevSigs : List (Nat × String))
    (s : Sheet) (cols : List String) :
    List.Sublist (classify prevSigs (sheetSignatures s cols)).1
      (List.range s.rows.length) := by
  have h1 : List.Sublist
      ((sheetSignatures s cols).filter fun p =>
        !(prevSigs.map Prod.snd).contains p.2)
      (sheetSignatures s cols) := List.filter_sublist _
  have h2 := h1.map Prod.fst
  have h3 : (sheetSignatures s cols).map Prod.fst =
      List.range s.rows.length := by
    unfold sheetSignatures
    rw [List.map_map]
    have hf : (Prod.fst ∘ fun p : Nat × List Cell =>
        (p.1, rowSignature s.header cols p.2)) = Prod.fst :=
      funext fun p => rfl
    rw [hf, List.enum_map_fst]
  rw [h3] at h2
  simpa only [classify] using h2

theorem Grooby.bnot_isEmpty_iff (l : List Nat) : (!l.isEmpty) = true ↔ l ≠ [] := by
  cases l <;> simp

/-- C2: the Change Classifier — a `current` row position belongs to the
ChangeSet exactly when that row's signature is not among the `previous`
signatures; the ChangeSet lists `current` row positions in order; and
`changes_found` is true exactly when the ChangeSet is non-empty. -/
theorem C2_classifier_characterisation (previous current : Grooby.Sheet)
    (cols : List String) :
    ((Grooby.classify (Grooby.sheetSignatures previous cols)
        (Grooby.sheetSignatures current cols)).1.Pairwise (· < ·)) ∧
    (∀ i : Nat,
      i ∈ (Grooby.classify (Grooby.sheetSignatures previous cols)
          (Grooby.sheetSignatures current cols)).1 ↔
        ∃ h : i < current.rows.length,
          Grooby.rowSignature current.header cols (current.rows.get ⟨i, h⟩) ∉
            (Grooby.sheetSignatures previous cols).map Prod.snd) ∧
    ((Grooby.classify (Grooby.sheetSignatures previous cols)
        (Grooby.sheetSignatures current cols)).2 = true ↔
      (Grooby.classify (Grooby.sheetSignatures previous cols)
          (Grooby.sheetSignatures current cols)).1 ≠ []) := by
  refine ⟨?_, ?_, ?_⟩
  · exact (List.pairwise_lt_range _).sublist
      (Grooby.classify_fst_sublist _ current cols)
  · exact fun i => Grooby.mem_classify_iff _ current cols i
  · exact Grooby.bnot_isEmpty_iff _

theorem Grooby.highlightSheet_rows_get (s : Sheet) (cs : List Nat) (i : Nat)
    (r : List Cell) (h : s.rows[i]? = some r) :
    (highlightSheet s cs).rows[i]? =
      some (if cs.contains i then highlightRow r else r) := by
  have hrows : (highlightSheet s cs).rows = s.rows.enum.map fun p =>
      if cs.contains p.1 then highlightRow p.2 else p.2 := rfl
  rw [hrows, List.getElem?_map, List.getElem?_enum, h]
  rfl

theorem Grooby.highlightRow_frame (r : List Cell) :
    (highlightRow r).map Cell.value = r.map Cell.value ∧
      ∀ c ∈ highlightRow r, c.fill = some "yellow" := by
  constructor
  · unfold highlightRow
    rw [List.map_map]
    exact List.map_congr_left fun c hc => rfl
  · intro c hc
    unfold highlightRow at hc
    obtain ⟨c0, hc0, hmap⟩ := List.mem_map.mp hc
    rw [← hmap]

theorem Grooby.highlightSheet_nil (s : Sheet) : highlightSheet s [] = s := by
  unfold highlightSheet
  have hfun : (fun p : Nat × List Cell =>
      if ([] : List Nat).contains p.1 then highlightRow p.2 else p.2) =
        Prod.snd := by
    funext p
    rfl
  rw [hfun, List.enum_map_snd]

theorem Grooby.highlightWorkbook_other (wb : Workbook) (curName : String)
    (cs : List Nat) (j : Nat) (s : Sheet) (h : wb.sheets[j]? = some s)
    (hn : s.name ≠ curName) :
    (highlightWorkbook wb curName cs).sheets[j]? = some s := by
  have hsheets : (highlightWorkbook wb curName cs).sheets =
      wb.sheets.map fun t =>
        if t.name = curName then highlightSheet t cs else t := rfl
  rw [hsheets, List.getElem?_map, h]
  simp [hn]

theorem Grooby.highlightWorkbook_nil (wb : Workbook) (curName : String) :
    highlightWorkbook wb curName [] = wb := by
  unfold highlightWorkbook
  have h1 : ∀ s ∈ wb.sheets,
      (if s.name = curName then highlightSheet s [] else s) = s := by
    intro s hs
    by_cases hn : s.name = curName
    · rw [if_pos hn, highlightSheet_nil]
    · rw [if_neg hn]
  have h2 : (wb.sheets.map fun s =>
      if s.name = curName then highlightSheet s [] else s) = wb.sheets := by
    calc (wb.sheets.map fun s =>
        if s.name = curName then highlightSheet s [] else s)
        = wb.sheets.map id := List.map_congr_left h1
      _ = wb.sheets := List.map_id _
  rw [h2]

/-- C6: the Highlighter only fills rows of the `current` sheet listed in
the ChangeSet: sheets with a different name are untouched, a row of the
`current` sheet is replaced by its filled version exactly when its position
is in the ChangeSet (and kept as is otherwise), the sheet's name, header
and row count are preserved, filling a row gives every cell the yellow fill
while preserving every cell value, and an empty ChangeSet makes the
Highlighter a no-op on the whole workbook. -/
theorem C6_highlighter_frame (wb : Grooby.Workbook) (curName : String)
    (cs : List Nat) :
    (∀ (j : Nat) (s : Grooby.Sheet), wb.sheets[j]? = some s →
      s.name ≠ curName →
      (Grooby.highlightWorkbook wb curName cs).sheets[j]? = some s) ∧
    (∀ s : Grooby.Sheet, ∀ i r, s.rows[i]? = some r →
      (Grooby.highlightSheet s cs).rows[i]? =
        some (if cs.contains i then Grooby.highlightRow r else r)) ∧
    (∀ s : Grooby.Sheet, (Grooby.highlightSheet s cs).name = s.name ∧
      (Grooby.highlightSheet s cs).header = s.header ∧
      (Grooby.highlightSheet s cs).rows.length = s.rows.length) ∧
    (∀ r : List Grooby.Cell,
      (Grooby.highlightRow r).map Grooby.Cell.value =
          r.map Grooby.Cell.value ∧
        ∀ c ∈ Grooby.highlightRow r, c.fill = some "yellow") ∧
    (cs = [] → Grooby.highlightWorkbook wb curName cs = wb) := by
  refine ⟨?_, ?_, ?_, ?_, ?_⟩
  · exact fun j s h hn => Grooby.highlightWorkbook_other wb curName cs j s h hn
  · exact fun s i r h => Grooby.highlightSheet_rows_get s cs i r h
  · intro s
    refine ⟨rfl, rfl, ?_⟩
    simp [Grooby.highlightSheet]
  · exact fun r => Grooby.highlightRow_frame r
  · intro hcs
    rw [hcs]
    exact Grooby.highlightWorkbook_nil wb curName

/-- Witness for C6 on a concrete workbook: a non-`current` sheet is
untouched, row 0 of the `current` sheet is filled, and the empty ChangeSet
is a no-op. -/
theorem C6_highlighter_frame_witness :
    (Grooby.highlightWorkbook Grooby.wbOneSnapshot "12.24" [0]).sheets[1]? =
        some Grooby.sheetSummary ∧
      (Grooby.highlightSheet Grooby.sheetDec24 [0]).rows[0]? =
        some (if ([0] : List Nat).contains 0 then
            Grooby.highlightRow [⟨.str "a", none⟩, ⟨.str "ok", none⟩]
          else [⟨.str "a", none⟩, ⟨.str "ok", none⟩]) ∧
      Grooby.highlightWorkbook Grooby.wbOneSnapshot "12.24" [] =
        Grooby.wbOneSnapshot :=
  ⟨(C6_highlighter_frame Grooby.wbOneSnapshot "12.24" [0]).1 1
      Grooby.sheetSummary rfl (by decide),
   (C6_highlighter_frame Grooby.wbOneSnapshot "12.24" [0]).2.1
      Grooby.sheetDec24 0 [⟨.str "a", none⟩, ⟨.str "ok", none⟩] rfl,
   (C6_highlighter_frame Grooby.wbOneSnapshot "12.24" []).2.2.2.2 rfl⟩
